import Mathlib

/-!
Shallow embedding of the media backup tool (`src/app.py`).

The program walks a source directory tree, filters files by a configured
extension set, resolves a date per file (EXIF metadata, falling back to the
filesystem modification time), and copies each file into a
`<dest>/<YYYY>/<MM_MonthName>` folder (or `<dest>/Unknown_Date` when no date
could be resolved), avoiding overwrites with a numeric suffix.

Paths are POSIX strings (`os.path.join` with `/`).  Filesystem state is
modelled explicitly: the set of existing destination paths is a
`List String`, and the writes a run performs are recorded as a list of
events.  Python exceptions are modelled with `Except`; `try/except` blocks
become explicit handlers.
-/

namespace MediaBackup

/-! ### Strings: lowercasing, suffix test (`file.lower().endswith(exts)`) -/

/-- Python `s.lower()`: lowercase every character. -/
def lowerStr (s : String) : String := ⟨s.data.map Char.toLower⟩

/-- Python `s.endswith(suffix)` for a single suffix. -/
def endsWithStr (s suffix : String) : Bool := suffix.data.isSuffixOf s.data

/-- The check `file.lower().endswith(tuple(exts))`: the extension filter used both by
`count_media_files` (line 124) and by the enumeration in `copy_media`
(line 265). -/
def matchesExt (file : String) (exts : List String) : Bool :=
  exts.any (fun e => endsWithStr (lowerStr file) e)

/-- The fixed image-extension tuple hardcoded at lines 126 and 220. -/
def imageExtensions : List String :=
  [".jpg", ".jpeg", ".png", ".gif", ".bmp", ".webp"]

/-- The check `file.lower().endswith(('.jpg', '.jpeg', '.png', '.gif', '.bmp', '.webp'))`. -/
def isImageName (file : String) : Bool := matchesExt file imageExtensions

/-! ### Configuration loading (`load_config`, lines 81-101) -/

/-- The built-in default extension tuple (lines 83-85). -/
def default_extensions : List String :=
  [".jpg", ".jpeg", ".png", ".gif", ".bmp", ".webp",
   ".mp4", ".mov", ".avi", ".mkv", ".flv", ".wmv",
   ".webm", ".m4v", ".3gp"]

/-- What reading `backup_config.json` can yield:
  * `absent`      — `os.path.exists(self.config_file)` is false;
  * `unreadable`  — opening, `json.load`, or `tuple(...)` raises;
  * `parsed none` — valid JSON object without a `media_extensions` key;
  * `parsed (some exts)` — valid JSON with a `media_extensions` list. -/
inductive ConfigRead
  | absent
  | unreadable
  | parsed (mediaExtensions : Option (List String))
deriving DecidableEq

/-- Model of `load_config`: returns the extension list to use and whether the default
configuration was written back to disk.  The write-back (lines 95-99) sits
inside the `except` block, so it runs only when reading raised. -/
def load_config : ConfigRead → List String × Bool
  | .absent => (default_extensions, false)
  | .unreadable => (default_extensions, true)
  | .parsed none => (default_extensions, false)
  | .parsed (some exts) => (exts, false)

/-! ### Pre-flight counting (`count_media_files`, lines 115-135) -/

structure PreflightSummary where
  total : Nat
  images : Nat
  videos : Nat
deriving DecidableEq

/-- Model of `count_media_files`: walk over the (flattened) file names, count files
matching the extension set, split into images (fixed image tuple) and
videos (everything else that matched). -/
def count_media_files (files : List String) (exts : List String) : PreflightSummary :=
  let counts := files.foldl
    (fun (c : Nat × Nat) file =>
      if matchesExt file exts then
        if isImageName file then (c.1 + 1, c.2) else (c.1, c.2 + 1)
      else c)
    (0, 0)
  { total := counts.1 + counts.2, images := counts.1, videos := counts.2 }

/-! ### Decimal rendering of the collision counter (`f"{base}_{counter}{ext}"`) -/

/-- The character of a single decimal digit. -/
def digitChar : Nat → Char
  | 0 => '0' | 1 => '1' | 2 => '2' | 3 => '3' | 4 => '4'
  | 5 => '5' | 6 => '6' | 7 => '7' | 8 => '8' | 9 => '9'
  | _ => '*'

/-- Little-endian decimal digits of `n`, with explicit fuel. -/
def natDigitsRev : Nat → Nat → List Nat
  | _, 0 => []
  | 0, _ => []
  | fuel + 1, n + 1 => ((n + 1) % 10) :: natDigitsRev fuel ((n + 1) / 10)

/-- Value of a little-endian decimal digit list. -/
def ofDigitsRev : List Nat → Nat
  | [] => 0
  | d :: ds => d + 10 * ofDigitsRev ds

/-- Standard decimal rendering of a natural number (`str(counter)`). -/
def natToStr (n : Nat) : String :=
  if n = 0 then "0" else ⟨((natDigitsRev n n).reverse).map digitChar⟩

/-! ### Collision-safe copy (`safe_copy`, lines 238-247) -/

/-- The `k`-th destination name probed by `safe_copy`: first `dst` itself
(`base ++ ext`, from `os.path.splitext(dst)`), then `base_1.ext`,
`base_2.ext`, … -/
def candidate (base ext : String) : Nat → String
  | 0 => base ++ ext
  | k + 1 => base ++ "_" ++ natToStr (k + 1) ++ ext

/-- The `while os.path.exists(new_dst)` loop: probe `candidate k`,
`candidate (k+1)`, … against the existing paths `fs`, returning the first
free name; `fuel` bounds the number of probes. -/
def findFreeName (base ext : String) (fs : List String) : Nat → Nat → Option String
  | 0, _ => none
  | fuel + 1, k =>
    if candidate base ext k ∈ fs then findFreeName base ext fs fuel (k + 1)
    else some (candidate base ext k)

/-- Model of `safe_copy`: find a free destination name (at most `fs.length + 1`
probes suffice, proved below), copy the file there (`shutil.copy2`), and
return the name together with the filesystem extended by the new file. -/
def safe_copy (base ext : String) (fs : List String) : Option (String × List String) :=
  match findFreeName base ext fs (fs.length + 1) 0 with
  | some d => some (d, d :: fs)
  | none => none

/-! ### Dates and destination folders (`get_media_date`, lines 215-236;
folder computation, lines 288-298) -/

/-- The year/month part of a resolved `datetime` (the only fields the
folder layout uses). -/
structure MediaDate where
  year : Nat
  month : Nat
deriving DecidableEq

/-- Full month names, as produced by `strftime("%B")` in the C locale. -/
def monthNames : List String :=
  ["January", "February", "March", "April", "May", "June",
   "July", "August", "September", "October", "November", "December"]

/-- Format `strftime("%B")` for month `m` (1-12). -/
def monthName (m : Nat) : String := monthNames.getD (m - 1) ""

/-- Format `strftime("%m")`: month zero-padded to two digits. -/
def pad2 (n : Nat) : String :=
  if n < 10 then "0" ++ natToStr n else natToStr n

/-- Format `strftime("%Y")`: year zero-padded to four digits. -/
def pad4 (n : Nat) : String :=
  if n < 10 then "000" ++ natToStr n
  else if n < 100 then "00" ++ natToStr n
  else if n < 1000 then "0" ++ natToStr n
  else natToStr n

/-- Path `os.path.join(destination_folder, "Unknown_Date")` (line 280). -/
def unknownFolder (dest : String) : String := dest ++ "/Unknown_Date"

/-- Path `os.path.join(destination_folder, date.strftime("%Y"), date.strftime("%m_%B"))`
(lines 294-298). -/
def datedFolder (dest : String) (d : MediaDate) : String :=
  dest ++ "/" ++ pad4 d.year ++ "/" ++ pad2 d.month ++ "_" ++ monthName d.month

/-- Folder selection at lines 289-298: `Unknown_Date` when no date was
resolved, the year/month folder otherwise. -/
def folderFor (dest : String) (md : Option MediaDate) : String :=
  match md with
  | none => unknownFolder dest
  | some d => datedFolder dest d

/-- What the EXIF read (`Image.open` + `piexif.load`, lines 221-226) does
for a given file: raise, yield no date (no `_getexif`, no `exif` blob, no
`DateTime` tag), or yield a parsed date. -/
inductive ExifOutcome
  | raises
  | noDate
  | date (d : MediaDate)
deriving DecidableEq

/-- One enumerated file, with the environment facts that determine its
processing: its base name and extension (`os.path.splitext` of the base
name), what the EXIF read does, what `os.path.getmtime` returns (`none`
means it raises), and whether `os.makedirs` / `shutil.copy2` succeed for
it. -/
structure MediaFile where
  base : String
  ext : String
  exif : ExifOutcome
  mtime : Option MediaDate
  mkdirOk : Bool
  copyOk : Bool
deriving DecidableEq

/-- The file's name as seen by the extension filters. -/
def MediaFile.fname (f : MediaFile) : String := f.base ++ f.ext

/-- The metadata tier of `get_media_date` (lines 219-228): the date the
`try` block returns, `none` when the block falls through (non-image file,
missing tag/blob, or a caught exception). -/
def exifDate (f : MediaFile) : Option MediaDate :=
  if isImageName f.fname then
    match f.exif with
    | .date d => some d
    | _ => none
  else none

/-- Model of `get_media_date`: EXIF date if the image tier produced one, else the
modification time (lines 230-233), else `None` (lines 234-236). -/
def get_media_date (f : MediaFile) : Option MediaDate :=
  match exifDate f with
  | some d => some d
  | none => f.mtime

/-- The raw EXIF read, before the `try/except`: `.error` models the raised
exception. -/
def exifRead (f : MediaFile) : Except String (Option MediaDate) :=
  if isImageName f.fname then
    match f.exif with
    | .raises => .error "exif read failed"
    | .noDate => .ok none
    | .date d => .ok (some d)
  else .ok none

/-- The raw `os.path.getmtime` call: `.error` models the raised exception. -/
def mtimeRead (f : MediaFile) : Except String MediaDate :=
  match f.mtime with
  | some d => .ok d
  | none => .error "getmtime failed"

/-- Variant of `get_media_date` with its exception behaviour explicit: an `.error`
result would model an exception escaping to the caller.  The two
`try/except` blocks of lines 219-236 become the two handlers. -/
def get_media_date_exc (f : MediaFile) : Except String (Option MediaDate) :=
  let fromExif : Option MediaDate :=
    match exifRead f with
    | .ok v => v
    | .error _ => none
  match fromExif with
  | some d => .ok (some d)
  | none =>
    match mtimeRead f with
    | .ok d => .ok (some d)
    | .error _ => .ok none

/-! ### The copy phase (`copy_media`, lines 249-324) -/

/-- A filesystem write performed against the destination tree. -/
inductive FsWrite
  | mkdir (path : String)
  | fileCopy (src dst : String)
deriving DecidableEq

/-- The mutable state of one backup run: existing destination file paths,
the `folder_cache` set, the writes performed, the per-file errors logged by
the `except` at line 316, and the number of files copied. -/
structure JobState where
  fsPaths : List String
  cache : List String
  events : List FsWrite
  errors : List String
  copied : Nat
deriving DecidableEq

/-- State before any write: the destination already holds `initFs`. -/
def initJobState (initFs : List String) : JobState :=
  { fsPaths := initFs, cache := [], events := [], errors := [], copied := 0 }

/-- The body of the per-file `try` block (lines 287-314): resolve the date,
ensure the folder (consulting `folder_cache`), copy.  `.error` carries the
state at the raise point, since side effects before an exception persist. -/
def processFileBody (dest : String) (st : JobState) (f : MediaFile) :
    Except (String × JobState) JobState :=
  let md := get_media_date f
  let folderPath := folderFor dest md
  let st1 : JobState :=
    if folderPath ∈ st.cache then st
    else { st with events := st.events ++ [.mkdir folderPath],
                   cache := folderPath :: st.cache }
  if folderPath ∈ st.cache ∨ f.mkdirOk then
    if f.copyOk then
      match safe_copy (folderPath ++ "/" ++ f.base) f.ext st1.fsPaths with
      | some (d, fs') =>
        .ok { st1 with fsPaths := fs',
                       events := st1.events ++ [.fileCopy f.fname d],
                       copied := st1.copied + 1 }
      | none => .error ("safe_copy ran out of fuel", st1)
    else .error ("copy failed", st1)
  else .error ("makedirs failed", st)

/-- One loop iteration with the `except Exception` at lines 316-317: an
exception is logged and the loop continues from the state at the raise
point. -/
def processFile (dest : String) (st : JobState) (f : MediaFile) : JobState :=
  match processFileBody dest st f with
  | .ok st' => st'
  | .error (e, st') => { st' with errors := st'.errors ++ [e] }

/-- The `for i, file_path in enumerate(media_to_copy)` loop (lines
286-317).  `running i` is the value of the shared `self.is_running` flag at
iteration `i`; the loop body never consults it — there is no cancellation
check between lines 286 and 317. -/
def copy_media_loop (dest : String) (running : Nat → Bool) :
    Nat → JobState → List MediaFile → JobState
  | _, st, [] => st
  | i, st, f :: rest => copy_media_loop dest running (i + 1) (processFile dest st f) rest

/-- Terminal outcome of `copy_media`: the "No media files found!" dialog
(line 273) or the "Backup Complete" dialog reporting `total_media` copies
(line 324).  The function has no cancelled outcome. -/
inductive CopyResult
  | nothingToDo
  | completed (total : Nat)
deriving DecidableEq

/-- Model of `copy_media` from line 272 on, after enumeration produced `files`: with
an empty list it returns at line 274 — before the `os.makedirs` of
`Unknown_Date` at line 281; otherwise it pre-creates `Unknown_Date`, seeds
`folder_cache` with it, and runs the copy loop. -/
def copy_media (dest : String) (initFs : List String) (running : Nat → Bool)
    (files : List MediaFile) : JobState × CopyResult :=
  if files.isEmpty then (initJobState initFs, .nothingToDo)
  else
    let st0 : JobState :=
      { fsPaths := initFs, cache := [unknownFolder dest],
        events := [.mkdir (unknownFolder dest)], errors := [], copied := 0 }
    (copy_media_loop dest running 0 st0 files, .completed files.length)

/-- The enumeration filter of lines 263-267 (directories flattened): only
files whose lowercased name ends in a configured extension are collected
for the copy phase. -/
def enumerate_media (exts : List String) (files : List MediaFile) : List MediaFile :=
  files.filter (fun f => matchesExt f.fname exts)

/-- Model of `copy_media` with its own exception behaviour explicit: the
`os.makedirs(unknown_folder, exist_ok=True)` at line 281 sits outside the
per-file `try` of lines 287-316, so when it raises (for example a read-only
existing destination, which passes the `os.makedirs(destination,
exist_ok=True)` check of line 151 as a no-op), the exception escapes
`copy_media` before any file is processed.  `unknownMkdirOk` says whether
that call succeeds; the empty-list return of line 274 happens first, so an
empty run never reaches it.  On success the run is `copy_media`. -/
def copy_media_exc (dest : String) (initFs : List String) (unknownMkdirOk : Bool)
    (running : Nat → Bool) (files : List MediaFile) :
    Except String (JobState × CopyResult) :=
  if files.isEmpty then .ok (initJobState initFs, .nothingToDo)
  else if unknownMkdirOk then
    let st0 : JobState :=
      { fsPaths := initFs, cache := [unknownFolder dest],
        events := [.mkdir (unknownFolder dest)], errors := [], copied := 0 }
    .ok (copy_media_loop dest running 0 st0 files, .completed files.length)
  else .error "makedirs failed for Unknown_Date"

/-! ### Job start (`start_backup` lines 137-180, worker `run_backup` lines 182-190) -/

/-- Outcome of one job: a pre-start validation error dialog (lines 146-154,
before the worker thread starts), the "An error occurred" dialog of
`run_backup`'s catch-all (lines 186-187, for an exception that escaped
`copy_media` after the job started — no file had been copied), or a
completed run of the worker. -/
inductive JobOutcome
  | abortedPreStart (msg : String)
  | failedAfterStart (msg : String)
  | ran (st : JobState) (res : CopyResult)

/-- Model of `start_backup` followed by the worker body: validation of the
source (line 146) and of destination creation (lines 150-154) happens before
the thread starts; once running, an exception escaping `copy_media` (the
line-281 pre-creation of `Unknown_Date`) is caught by `run_backup`'s
catch-all at lines 186-187. -/
def start_backup (sourceExists destCreatable : Bool) (dest : String)
    (initFs : List String) (unknownMkdirOk : Bool) (running : Nat → Bool)
    (files : List MediaFile) : JobOutcome :=
  if !sourceExists then .abortedPreStart "Source folder does not exist"
  else if !destCreatable then .abortedPreStart "Cannot create destination folder"
  else
    match copy_media_exc dest initFs unknownMkdirOk running files with
    | .ok (st, res) => .ran st res
    | .error e => .failedAfterStart e

end MediaBackup
namespace MediaBackup

theorem natDigitsRev_lt (fuel n : Nat) : ∀ d ∈ natDigitsRev fuel n, d < 10 := by
  induction fuel generalizing n with
  | zero => cases n <;> simp [natDigitsRev]
  | succ fuel ih =>
    cases n with
    | zero => simp [natDigitsRev]
    | succ m =>
      simp only [natDigitsRev, List.mem_cons]
      rintro d (rfl | hd)
      · exact Nat.mod_lt _ (by omega)
      · exact ih _ d hd

theorem ofDigitsRev_natDigitsRev (fuel n : Nat) (h : n ≤ fuel) :
    ofDigitsRev (natDigitsRev fuel n) = n := by
  induction fuel generalizing n with
  | zero =>
    have : n = 0 := by omega
    subst this; simp [natDigitsRev, ofDigitsRev]
  | succ fuel ih =>
    cases n with
    | zero => simp [natDigitsRev, ofDigitsRev]
    | succ m =>
      have hdiv : (m + 1) / 10 ≤ fuel := by
        have := Nat.div_lt_self (Nat.succ_pos m) (by omega : 1 < 10)
        omega
      simp only [natDigitsRev, ofDigitsRev, ih _ hdiv]
      omega

theorem digitChar_inj : ∀ d < 10, ∀ e < 10, digitChar d = digitChar e → d = e := by decide

theorem map_digitChar_inj : ∀ (xs ys : List Nat), (∀ d ∈ xs, d < 10) → (∀ d ∈ ys, d < 10) →
    xs.map digitChar = ys.map digitChar → xs = ys
  | [], [], _, _, _ => rfl
  | [], _ :: _, _, _, h => by simp at h
  | _ :: _, [], _, _, h => by simp at h
  | x :: xs, y :: ys, hx, hy, h => by
    simp only [List.map_cons, List.cons.injEq] at h
    have hxy := digitChar_inj x (hx x (by simp)) y (hy y (by simp)) h.1
    have htl := map_digitChar_inj xs ys (fun d hd => hx d (by simp [hd]))
      (fun d hd => hy d (by simp [hd])) h.2
    simp [hxy, htl]

theorem natToStr_inj (m n : Nat) (hm : 0 < m) (hn : 0 < n)
    (h : natToStr m = natToStr n) : m = n := by
  unfold natToStr at h
  rw [if_neg (by omega), if_neg (by omega), String.ext_iff] at h
  simp only at h
  have hrev := map_digitChar_inj _ _
    (fun d hd => natDigitsRev_lt m m d (List.mem_reverse.mp hd))
    (fun d hd => natDigitsRev_lt n n d (List.mem_reverse.mp hd)) h
  have hdig : natDigitsRev m m = natDigitsRev n n := List.reverse_injective hrev
  calc m = ofDigitsRev (natDigitsRev m m) := (ofDigitsRev_natDigitsRev m m le_rfl).symm
    _ = ofDigitsRev (natDigitsRev n n) := by rw [hdig]
    _ = n := ofDigitsRev_natDigitsRev n n le_rfl

end MediaBackup
namespace MediaBackup

theorem candidate_succ_data (base ext : String) (k : Nat) :
    (candidate base ext (k + 1)).data =
      base.data ++ ('_' :: ((natToStr (k + 1)).data ++ ext.data)) := by
  simp [candidate, String.data_append, List.append_assoc]

theorem candidate_inj (base ext : String) :
    ∀ m n, candidate base ext m = candidate base ext n → m = n := by
  intro m n h
  match m, n with
  | 0, 0 => rfl
  | 0, n + 1 =>
    exfalso
    have hl := congrArg String.length h
    simp [candidate, String.length_append] at hl
    have : (1 : Nat) ≤ ("_" : String).length := by decide
    omega
  | m + 1, 0 =>
    exfalso
    have hl := congrArg String.length h
    simp [candidate, String.length_append] at hl
    have : (1 : Nat) ≤ ("_" : String).length := by decide
    omega
  | m + 1, n + 1 =>
    have hd := congrArg String.data h
    rw [candidate_succ_data, candidate_succ_data] at hd
    have h1 := List.append_cancel_left hd
    have h2 : (natToStr (m + 1)).data ++ ext.data = (natToStr (n + 1)).data ++ ext.data :=
      List.tail_eq_of_cons_eq h1
    have h3 : (natToStr (m + 1)).data = (natToStr (n + 1)).data :=
      List.append_cancel_right h2
    have h4 : natToStr (m + 1) = natToStr (n + 1) := String.ext h3
    have := natToStr_inj (m + 1) (n + 1) (by omega) (by omega) h4
    omega

end MediaBackup
namespace MediaBackup

theorem findFreeName_mem {base ext : String} {fs : List String} {fuel k : Nat}
    (h : candidate base ext k ∈ fs) :
    findFreeName base ext fs (fuel + 1) k = findFreeName base ext fs fuel (k + 1) := by
  simp [findFreeName, if_pos h]

theorem findFreeName_not_mem {base ext : String} {fs : List String} {fuel k : Nat}
    (h : candidate base ext k ∉ fs) :
    findFreeName base ext fs (fuel + 1) k = some (candidate base ext k) := by
  simp [findFreeName, if_neg h]

theorem findFreeName_spec (base ext : String) (fs : List String) :
    ∀ fuel k, (∃ i, i < fuel ∧ candidate base ext (k + i) ∉ fs) →
    ∃ d, findFreeName base ext fs fuel k = some d ∧ d ∉ fs := by
  intro fuel
  induction fuel with
  | zero =>
    rintro k ⟨i, hi, -⟩
    omega
  | succ fuel ih =>
    rintro k ⟨i, hi, hfree⟩
    by_cases hmem : candidate base ext k ∈ fs
    · have hnext : ∃ j, j < fuel ∧ candidate base ext ((k + 1) + j) ∉ fs := by
        cases i with
        | zero => exact absurd hmem (by simpa using hfree)
        | succ j =>
          refine ⟨j, by omega, ?_⟩
          have heq : k + 1 + j = k + (j + 1) := by omega
          rw [heq]; exact hfree
      obtain ⟨d, hd, hnd⟩ := ih (k + 1) hnext
      exact ⟨d, by rw [findFreeName_mem hmem]; exact hd, hnd⟩
    · exact ⟨candidate base ext k, findFreeName_not_mem hmem, hmem⟩

theorem exists_free_candidate (base ext : String) (fs : List String) :
    ∃ i, i < fs.length + 1 ∧ candidate base ext i ∉ fs := by
  by_contra hcon
  push_neg at hcon
  have hsub : ((List.range (fs.length + 1)).map (candidate base ext)) ⊆ fs := by
    intro x hx
    simp only [List.mem_map, List.mem_range] at hx
    obtain ⟨i, hi, rfl⟩ := hx
    exact hcon i hi
  have hnd : ((List.range (fs.length + 1)).map (candidate base ext)).Nodup :=
    (List.nodup_range _).map (fun a b hab => candidate_inj base ext a b hab)
  have hlen := (List.subperm_of_subset hnd hsub).length_le
  simp [List.length_map, List.length_range] at hlen

theorem safe_copy_total (base ext : String) (fs : List String) :
    ∃ d, safe_copy base ext fs = some (d, d :: fs) ∧ d ∉ fs := by
  obtain ⟨i, hi, hfree⟩ := exists_free_candidate base ext fs
  obtain ⟨d, hd, hnd⟩ := findFreeName_spec base ext fs (fs.length + 1) 0
    ⟨i, hi, by simpa using hfree⟩
  exact ⟨d, by simp [safe_copy, hd], hnd⟩

end MediaBackup
namespace MediaBackup

theorem candidate_one (base ext : String) : candidate base ext 1 = base ++ "_1" ++ ext := by
  apply String.ext
  have h1 : natToStr 1 = "1" := by decide
  have d1 : ("_" : String).data = ['_'] := by decide
  have d2 : ("1" : String).data = ['1'] := by decide
  have d3 : ("_1" : String).data = ['_', '1'] := by decide
  simp [candidate, h1, String.data_append, d1, d2, d3]

theorem candidate_two (base ext : String) : candidate base ext 2 = base ++ "_2" ++ ext := by
  apply String.ext
  have h1 : natToStr 2 = "2" := by decide
  have d1 : ("_" : String).data = ['_'] := by decide
  have d2 : ("2" : String).data = ['2'] := by decide
  have d3 : ("_2" : String).data = ['_', '2'] := by decide
  simp [candidate, h1, String.data_append, d1, d2, d3]

theorem datedFolder_ne_unknownFolder (dest : String) (d : MediaDate) :
    datedFolder dest d ≠ unknownFolder dest := by
  intro h
  have hd := congrArg String.data h
  have ds : ("/" : String).data = ['/'] := by decide
  have du : ("/Unknown_Date" : String).data = '/' :: ("Unknown_Date" : String).data := by decide
  simp only [datedFolder, unknownFolder, String.data_append, List.append_assoc, ds, du] at hd
  have h1 := List.append_cancel_left hd
  have h2 : (pad4 d.year).data ++
      (['/'] ++ ((pad2 d.month).data ++ (['_'] ++ (monthName d.month).data))) =
      ("Unknown_Date" : String).data := List.tail_eq_of_cons_eq h1
  have hmem : '/' ∈ (pad4 d.year).data ++
      (['/'] ++ ((pad2 d.month).data ++ (['_'] ++ (monthName d.month).data))) :=
    List.mem_append_right _ (by simp)
  rw [h2] at hmem
  exact absurd hmem (by decide)

end MediaBackup
namespace MediaBackup

theorem processFile_facts (dest : String) (st : JobState) (f : MediaFile) :
    (processFile dest st f).copied + (processFile dest st f).errors.length
        = st.copied + st.errors.length + 1 ∧
    (∃ s, (processFile dest st f).events = st.events ++ s) ∧
    (∀ p, p ∈ st.cache → p ∈ (processFile dest st f).cache ∧
      (processFile dest st f).events.count (.mkdir p) = st.events.count (.mkdir p)) := by
  by_cases h1 : folderFor dest (get_media_date f) ∈ st.cache
  · by_cases h3 : f.copyOk = true
    · cases hsc : safe_copy (folderFor dest (get_media_date f) ++ "/" ++ f.base) f.ext
        st.fsPaths with
      | none =>
        simp only [processFile, processFileBody, h1, h3, hsc, if_true, if_false,
          false_or, true_or]
        exact ⟨by (try simp) <;> omega, ⟨[], by simp⟩, fun p hp => ⟨hp, by trivial⟩⟩
      | some pr =>
        obtain ⟨d, fs'⟩ := pr
        simp only [processFile, processFileBody, h1, h3, hsc, if_true, if_false,
          false_or, true_or]
        refine ⟨by (try simp) <;> omega, ⟨[.fileCopy f.fname d], by simp⟩, fun p hp => ⟨hp, ?_⟩⟩
        simp [List.count_append, List.count_cons]
    · simp only [processFile, processFileBody, h1, h3, if_true, if_false,
        false_or, true_or]
      exact ⟨by (try simp) <;> omega, ⟨[], by simp⟩, fun p hp => ⟨hp, by trivial⟩⟩
  · by_cases h2 : f.mkdirOk = true
    · by_cases h3 : f.copyOk = true
      · cases hsc : safe_copy (folderFor dest (get_media_date f) ++ "/" ++ f.base) f.ext
          st.fsPaths with
        | none =>
          simp only [processFile, processFileBody, h1, h2, h3, hsc, if_true, if_false,
            false_or, true_or]
          refine ⟨by (try simp) <;> omega, ⟨[.mkdir (folderFor dest (get_media_date f))], by simp⟩,
            fun p hp => ⟨by simp [hp], ?_⟩⟩
          have hne : FsWrite.mkdir p ≠ FsWrite.mkdir (folderFor dest (get_media_date f)) := by
            simp only [ne_eq, FsWrite.mkdir.injEq]
            exact fun he => h1 (he ▸ hp)
          simp [List.count_append, List.count_cons, hne]
        | some pr =>
          obtain ⟨d, fs'⟩ := pr
          simp only [processFile, processFileBody, h1, h2, h3, hsc, if_true, if_false,
            false_or, true_or]
          refine ⟨by (try simp) <;> omega,
            ⟨[.mkdir (folderFor dest (get_media_date f)), .fileCopy f.fname d], by simp⟩,
            fun p hp => ⟨by simp [hp], ?_⟩⟩
          have hne : FsWrite.mkdir p ≠ FsWrite.mkdir (folderFor dest (get_media_date f)) := by
            simp only [ne_eq, FsWrite.mkdir.injEq]
            exact fun he => h1 (he ▸ hp)
          simp [List.count_append, List.count_cons, hne]
      · simp only [processFile, processFileBody, h1, h2, h3, if_true, if_false,
          false_or, true_or]
        refine ⟨by (try simp) <;> omega, ⟨[.mkdir (folderFor dest (get_media_date f))], by simp⟩,
          fun p hp => ⟨by simp [hp], ?_⟩⟩
        have hne : FsWrite.mkdir p ≠ FsWrite.mkdir (folderFor dest (get_media_date f)) := by
          simp only [ne_eq, FsWrite.mkdir.injEq]
          exact fun he => h1 (he ▸ hp)
        simp [List.count_append, List.count_cons, hne]
    · simp only [processFile, processFileBody, h1, h2, if_true, if_false,
        false_or, true_or]
      exact ⟨by (try simp) <;> omega, ⟨[], by simp⟩, fun p hp => ⟨hp, by trivial⟩⟩

end MediaBackup
namespace MediaBackup

theorem copy_media_loop_facts (dest : String) (running : Nat → Bool) :
    ∀ (files : List MediaFile) (i : Nat) (st : JobState),
    (copy_media_loop dest running i st files).copied
        + (copy_media_loop dest running i st files).errors.length
        = st.copied + st.errors.length + files.length ∧
    (∃ s, (copy_media_loop dest running i st files).events = st.events ++ s) ∧
    (∀ p, p ∈ st.cache → p ∈ (copy_media_loop dest running i st files).cache ∧
      (copy_media_loop dest running i st files).events.count (.mkdir p)
        = st.events.count (.mkdir p)) := by
  intro files
  induction files with
  | nil =>
    intro i st
    exact ⟨by simp [copy_media_loop], ⟨[], by simp [copy_media_loop]⟩,
      fun p hp => ⟨hp, rfl⟩⟩
  | cons f rest ih =>
    intro i st
    obtain ⟨hstep, ⟨s₁, hev₁⟩, hcache₁⟩ := processFile_facts dest st f
    obtain ⟨hloop, ⟨s₂, hev₂⟩, hcache₂⟩ := ih (i + 1) (processFile dest st f)
    refine ⟨?_, ⟨s₁ ++ s₂, ?_⟩, ?_⟩
    · simp only [copy_media_loop, hloop, List.length_cons]
      omega
    · simp only [copy_media_loop, hev₂, hev₁, List.append_assoc]
    · intro p hp
      obtain ⟨hm1, hc1⟩ := hcache₁ p hp
      obtain ⟨hm2, hc2⟩ := hcache₂ p hm1
      exact ⟨by simpa [copy_media_loop] using hm2, by simp only [copy_media_loop, hc2, hc1]⟩

theorem copy_media_loop_running_irrel (dest : String) (r1 r2 : Nat → Bool) :
    ∀ (files : List MediaFile) (i j : Nat) (st : JobState),
    copy_media_loop dest r1 i st files = copy_media_loop dest r2 j st files := by
  intro files
  induction files with
  | nil => intro i j st; rfl
  | cons f rest ih => intro i j st; simp only [copy_media_loop]; exact ih (i + 1) (j + 1) _

end MediaBackup
namespace MediaBackup

theorem get_media_date_eq_none_iff (g : MediaFile) :
    get_media_date g = none ↔ (exifDate g = none ∧ g.mtime = none) := by
  unfold get_media_date
  cases he : exifDate g <;> simp [he]

theorem folderFor_eq_unknown_iff (dest : String) (g : MediaFile) :
    folderFor dest (get_media_date g) = unknownFolder dest ↔
      (exifDate g = none ∧ g.mtime = none) := by
  rw [← get_media_date_eq_none_iff]
  cases hgm : get_media_date g with
  | none => simp [folderFor]
  | some d => simp [folderFor, datedFolder_ne_unknownFolder dest d]

/-- Claim C7: for every file path, date resolution never throws or propagates an
exception to the caller: it always returns either a concrete date (from metadata
or modification time) or the explicit unknown marker (`none`), even when the
metadata is corrupt or the filesystem timestamp is unreadable. -/
theorem c7_resolver_never_raises (f : MediaFile) :
    get_media_date_exc f = Except.ok (get_media_date f) := by
  unfold get_media_date_exc get_media_date exifDate exifRead mtimeRead
  by_cases h : isImageName f.fname <;> cases f.exif <;> cases f.mtime <;> simp [h]

/-- Claim C3: for every file whose embedded metadata is corrupt, absent, or
unreadable but whose modification time is readable, the resolved date is the
modification time and the file is placed in the year/month folder computed from
it, never in Unknown_Date; Unknown_Date is used exactly for files whose
modification time is also unreadable (metadata, then mtime, then unknown). -/
theorem c3_fallback_to_mtime (dest : String) (f : MediaFile) (d : MediaDate)
    (hexif : exifDate f = none) (hmtime : f.mtime = some d) :
    get_media_date f = some d ∧
    folderFor dest (get_media_date f) = datedFolder dest d ∧
    folderFor dest (get_media_date f) ≠ unknownFolder dest ∧
    (∀ g : MediaFile, folderFor dest (get_media_date g) = unknownFolder dest ↔
      (exifDate g = none ∧ g.mtime = none)) := by
  have h1 : get_media_date f = some d := by
    unfold get_media_date; simp [hexif, hmtime]
  refine ⟨h1, by simp [h1, folderFor], ?_, fun g => folderFor_eq_unknown_iff dest g⟩
  simp only [h1, folderFor]
  exact datedFolder_ne_unknownFolder dest d

theorem c3_witness :
    exifDate ⟨"img", ".jpg", .raises, some ⟨2024, 3⟩, true, true⟩ = none ∧
    (⟨"img", ".jpg", .raises, some ⟨2024, 3⟩, true, true⟩ : MediaFile).mtime
        = some ⟨2024, 3⟩ ∧
    get_media_date ⟨"img", ".jpg", .raises, some ⟨2024, 3⟩, true, true⟩ = some ⟨2024, 3⟩ ∧
    folderFor "dst" (get_media_date ⟨"img", ".jpg", .raises, some ⟨2024, 3⟩, true, true⟩)
        = datedFolder "dst" ⟨2024, 3⟩ :=
  ⟨by decide, rfl,
    (c3_fallback_to_mtime "dst" _ _ (by decide) rfl).1,
    (c3_fallback_to_mtime "dst" _ _ (by decide) rfl).2.1⟩

/-- Claim C6 (evaluation): when the configuration file is absent,
`load_config` uses the 15 built-in default extensions but does NOT persist them
back (the write-back runs only inside the exception handler, i.e. for a
malformed configuration); loading never propagates a fatal error. -/
theorem c6_load_config_eval :
    load_config ConfigRead.absent = (default_extensions, false) ∧
    load_config ConfigRead.unreadable = (default_extensions, true) ∧
    load_config (ConfigRead.parsed none) = (default_extensions, false) ∧
    (∀ c, ∃ exts wrote, load_config c = (exts, wrote)) ∧
    default_extensions.length = 15 :=
  ⟨rfl, rfl, rfl, fun _ => ⟨_, _, rfl⟩, rfl⟩

/-- Claim C9: every file matching the configured extension set but not the six
fixed image extensions is counted as a video, even if the configured extension
is not a video format, and the summary always satisfies
total = images + videos. -/
theorem c9_nonimage_counted_as_video (files exts : List String) (file : String)
    (hm : matchesExt file exts = true) (hi : isImageName file = false) :
    (count_media_files files exts).total
        = (count_media_files files exts).images + (count_media_files files exts).videos ∧
    (count_media_files (files ++ [file]) exts).videos
        = (count_media_files files exts).videos + 1 ∧
    (count_media_files (files ++ [file]) exts).images
        = (count_media_files files exts).images := by
  refine ⟨rfl, ?_, ?_⟩ <;> simp [count_media_files, List.foldl_append, hm, hi]

theorem c9_witness :
    matchesExt "a.xyz" [".xyz"] = true ∧
    isImageName "a.xyz" = false ∧
    (count_media_files (["b.xyz"] ++ ["a.xyz"]) [".xyz"]).videos
        = (count_media_files ["b.xyz"] [".xyz"]).videos + 1 :=
  ⟨by decide, by decide,
    (c9_nonimage_counted_as_video ["b.xyz"] [".xyz"] "a.xyz" (by decide) (by decide)).2.1⟩

/-- Claim C10: for every finite set of existing destination paths, the
collision-suffix search terminates within `fs.length + 1` probes (the fuel of
`findFreeName`) and returns a destination path not in the existing set. -/
theorem c10_safe_copy_terminates (base ext : String) (fs : List String) :
    ∃ d, findFreeName base ext fs (fs.length + 1) 0 = some d ∧ d ∉ fs ∧
      safe_copy base ext fs = some (d, d :: fs) := by
  obtain ⟨i, hi, hfree⟩ := exists_free_candidate base ext fs
  obtain ⟨d, hd, hnd⟩ := findFreeName_spec base ext fs (fs.length + 1) 0
    ⟨i, hi, by simpa using hfree⟩
  exact ⟨d, hd, hnd, by simp [safe_copy, hd]⟩

end MediaBackup
namespace MediaBackup

/-- Claim C4: in a destination folder initially free of `name.ext`,
`name_1.ext` and `name_2.ext`, three successive copies of the same source name
yield exactly `name.ext`, `name_1.ext` and `name_2.ext`, pairwise distinct; and
in general `safe_copy` returns a path that did not exist at check time (it
never overwrites). -/
theorem c4_collision_naming (base ext : String) (fs0 : List String)
    (h0 : candidate base ext 0 ∉ fs0) (h1 : candidate base ext 1 ∉ fs0)
    (h2 : candidate base ext 2 ∉ fs0) :
    (∃ fs1 fs2 fs3,
      safe_copy base ext fs0 = some (base ++ ext, fs1) ∧
      safe_copy base ext fs1 = some (base ++ "_1" ++ ext, fs2) ∧
      safe_copy base ext fs2 = some (base ++ "_2" ++ ext, fs3)) ∧
    base ++ ext ≠ base ++ "_1" ++ ext ∧
    base ++ "_1" ++ ext ≠ base ++ "_2" ++ ext ∧
    base ++ ext ≠ base ++ "_2" ++ ext ∧
    (∀ fs d fs', safe_copy base ext fs = some (d, fs') → d ∉ fs ∧ fs' = d :: fs) := by
  have hne01 : candidate base ext 0 ≠ candidate base ext 1 :=
    fun he => by simpa using candidate_inj base ext 0 1 he
  have hne02 : candidate base ext 0 ≠ candidate base ext 2 :=
    fun he => by simpa using candidate_inj base ext 0 2 he
  have hne12 : candidate base ext 1 ≠ candidate base ext 2 :=
    fun he => by simpa using candidate_inj base ext 1 2 he
  have hc0 : candidate base ext 0 = base ++ ext := rfl
  have hm1 : candidate base ext 1 ∉ candidate base ext 0 :: fs0 := by
    simp only [List.mem_cons, not_or]
    exact ⟨fun he => hne01 he.symm, h1⟩
  have hm2a : candidate base ext 0 ∈
      candidate base ext 1 :: candidate base ext 0 :: fs0 := by simp
  have hm2b : candidate base ext 1 ∈
      candidate base ext 1 :: candidate base ext 0 :: fs0 := by simp
  have hm2c : candidate base ext 2 ∉
      candidate base ext 1 :: candidate base ext 0 :: fs0 := by
    simp only [List.mem_cons, not_or]
    exact ⟨fun he => hne12 he.symm, fun he => hne02 he.symm, h2⟩
  have s1 : safe_copy base ext fs0
      = some (candidate base ext 0, candidate base ext 0 :: fs0) := by
    unfold safe_copy
    rw [findFreeName_not_mem h0]
  have s2 : safe_copy base ext (candidate base ext 0 :: fs0)
      = some (candidate base ext 1,
          candidate base ext 1 :: candidate base ext 0 :: fs0) := by
    unfold safe_copy
    rw [List.length_cons, findFreeName_mem (List.mem_cons_self _ _),
      findFreeName_not_mem hm1]
  have s3 : safe_copy base ext (candidate base ext 1 :: candidate base ext 0 :: fs0)
      = some (candidate base ext 2,
          candidate base ext 2 :: candidate base ext 1 :: candidate base ext 0 :: fs0) := by
    unfold safe_copy
    rw [List.length_cons, List.length_cons, findFreeName_mem hm2a,
      findFreeName_mem hm2b, findFreeName_not_mem hm2c]
  refine ⟨⟨candidate base ext 0 :: fs0,
      candidate base ext 1 :: candidate base ext 0 :: fs0,
      candidate base ext 2 :: candidate base ext 1 :: candidate base ext 0 :: fs0,
      ?_, ?_, ?_⟩, ?_, ?_, ?_, ?_⟩
  · rw [s1, hc0]
  · rw [s2, candidate_one]
  · rw [s3, candidate_two]
  · rw [← hc0, ← candidate_one]; exact hne01
  · rw [← candidate_one, ← candidate_two]; exact hne12
  · rw [← hc0, ← candidate_two]; exact hne02
  · intro fs d fs' heq
    obtain ⟨d', hsc, hnd⟩ := safe_copy_total base ext fs
    rw [heq] at hsc
    simp only [Option.some.injEq, Prod.mk.injEq] at hsc
    exact ⟨hsc.1 ▸ hnd, by rw [hsc.2, hsc.1]⟩

/-- Witness for claim C4 at a concrete input. -/
theorem c4_witness :
    candidate "photo" ".jpg" 0 ∉ ([] : List String) ∧
    candidate "photo" ".jpg" 1 ∉ ([] : List String) ∧
    candidate "photo" ".jpg" 2 ∉ ([] : List String) ∧
    (∃ fs1 fs2 fs3,
      safe_copy "photo" ".jpg" [] = some ("photo" ++ ".jpg", fs1) ∧
      safe_copy "photo" ".jpg" fs1 = some ("photo" ++ "_1" ++ ".jpg", fs2) ∧
      safe_copy "photo" ".jpg" fs2 = some ("photo" ++ "_2" ++ ".jpg", fs3)) :=
  ⟨by simp, by simp, by simp,
    (c4_collision_naming "photo" ".jpg" [] (by simp) (by simp) (by simp)).1⟩

/-- Claim C8: for a source tree with exactly 3 `.jpg` files, 2 `.mp4` files
and 1 `.txt` file under the default extension set, the pre-flight summary is
{total 5, images 3, videos 2}, and the `.txt` file is excluded from the copy
phase enumeration. -/
theorem c8_preflight_counts :
    count_media_files ["p1.jpg", "p2.jpg", "p3.jpg", "v1.mp4", "v2.mp4", "n1.txt"]
        default_extensions = ⟨5, 3, 2⟩ ∧
    enumerate_media default_extensions
        [⟨"p1", ".jpg", .noDate, none, true, true⟩, ⟨"p2", ".jpg", .noDate, none, true, true⟩,
         ⟨"p3", ".jpg", .noDate, none, true, true⟩, ⟨"v1", ".mp4", .noDate, none, true, true⟩,
         ⟨"v2", ".mp4", .noDate, none, true, true⟩, ⟨"n1", ".txt", .noDate, none, true, true⟩]
      = [⟨"p1", ".jpg", .noDate, none, true, true⟩, ⟨"p2", ".jpg", .noDate, none, true, true⟩,
         ⟨"p3", ".jpg", .noDate, none, true, true⟩, ⟨"v1", ".mp4", .noDate, none, true, true⟩,
         ⟨"v2", ".mp4", .noDate, none, true, true⟩] := by
  constructor <;> decide

end MediaBackup
namespace MediaBackup

/-- Claim C2, counterexample: with zero enumerated files the job reports
nothing-to-do and performs zero writes, and in particular the Unknown_Date
folder is NOT created — `copy_media` returns at the empty check before the
`os.makedirs(unknown_folder)` call, refuting "created at job start regardless
of whether any file needs it". -/
theorem c2_counterexample :
    (copy_media "dst" [] (fun _ => true) []).2 = CopyResult.nothingToDo ∧
    (copy_media "dst" [] (fun _ => true) []).1.events = [] ∧
    FsWrite.mkdir (unknownFolder "dst") ∉ (copy_media "dst" [] (fun _ => true) []).1.events := by
  refine ⟨rfl, rfl, by decide⟩

/-- Claim C2, amended: when enumeration found at least one file, the
Unknown_Date folder is created exactly once, before any other destination
write; with zero matching files the job reports nothing-to-do and performs no
destination write at all (Unknown_Date included). -/
theorem c2_unknown_precreated_iff_nonempty (dest : String) (initFs : List String)
    (running : Nat → Bool) (files : List MediaFile) (h : files ≠ []) :
    (∃ s, (copy_media dest initFs running files).1.events
        = FsWrite.mkdir (unknownFolder dest) :: s) ∧
    (copy_media dest initFs running files).1.events.count
        (FsWrite.mkdir (unknownFolder dest)) = 1 ∧
    (copy_media dest initFs running files).2 = CopyResult.completed files.length ∧
    copy_media dest initFs running [] = (initJobState initFs, CopyResult.nothingToDo) := by
  cases files with
  | nil => exact absurd rfl h
  | cons f rest =>
    unfold copy_media
    simp only [List.isEmpty_cons, Bool.false_eq_true, if_false, List.isEmpty_nil, if_true]
    obtain ⟨hlen, ⟨s, hev⟩, hcache⟩ :=
      copy_media_loop_facts dest running (f :: rest) 0
        { fsPaths := initFs, cache := [unknownFolder dest],
          events := [.mkdir (unknownFolder dest)], errors := [], copied := 0 }
    obtain ⟨hmem, hcount⟩ := hcache (unknownFolder dest) (List.mem_cons_self _ _)
    refine ⟨⟨s, by simpa using hev⟩, by simpa using hcount, by trivial, by trivial⟩

theorem c2_witness :
    (([⟨"a", ".mp4", ExifOutcome.noDate, some ⟨2024, 3⟩, true, true⟩] : List MediaFile) ≠ []) ∧
    (copy_media "dst" [] (fun _ => true)
        [⟨"a", ".mp4", ExifOutcome.noDate, some ⟨2024, 3⟩, true, true⟩]).1.events.count
        (FsWrite.mkdir (unknownFolder "dst")) = 1 :=
  ⟨by simp, (c2_unknown_precreated_iff_nonempty "dst" [] (fun _ => true) _ (by simp)).2.1⟩

/-- Claim C1 (evaluation): the copy loop of `copy_media` never consults the
`is_running` flag, so the run result is identical for every cancellation
schedule; in particular, with cancellation requested after 1 of 3 files, all 3
files are copied and the job reports ordinary completion — there is no
cancelled outcome in `copy_media`. -/
theorem c1_copy_loop_ignores_cancellation :
    (∀ (dest : String) (initFs : List String) (r1 r2 : Nat → Bool) (files : List MediaFile),
      copy_media dest initFs r1 files = copy_media dest initFs r2 files) ∧
    (copy_media "dst" [] (fun i => decide (i < 1))
        [⟨"a", ".mp4", .noDate, some ⟨2024, 3⟩, true, true⟩,
         ⟨"b", ".mp4", .noDate, some ⟨2024, 3⟩, true, true⟩,
         ⟨"c", ".mp4", .noDate, some ⟨2024, 3⟩, true, true⟩]).1.copied = 3 ∧
    (copy_media "dst" [] (fun i => decide (i < 1))
        [⟨"a", ".mp4", .noDate, some ⟨2024, 3⟩, true, true⟩,
         ⟨"b", ".mp4", .noDate, some ⟨2024, 3⟩, true, true⟩,
         ⟨"c", ".mp4", .noDate, some ⟨2024, 3⟩, true, true⟩]).2 = CopyResult.completed 3 := by
  refine ⟨?_, ?_, rfl⟩
  · intro dest initFs r1 r2 files
    unfold copy_media
    cases hfe : files.isEmpty with
    | true => rfl
    | false =>
      simp only [Bool.false_eq_true, if_false, Prod.mk.injEq]
      exact ⟨copy_media_loop_running_irrel dest r1 r2 files 0 0 _, by trivial⟩
  · decide

/-- On a successful `Unknown_Date` pre-creation, the explicit-exception run
agrees with `copy_media`. -/
theorem copy_media_exc_ok (dest : String) (initFs : List String)
    (running : Nat → Bool) (files : List MediaFile) :
    copy_media_exc dest initFs true running files
      = Except.ok (copy_media dest initFs running files) := by
  cases files <;> rfl

/-- Claim C5, counterexample: a run that passes pre-start validation (source
exists, `os.makedirs(destination, exist_ok=True)` succeeded — for example the
destination already exists but is read-only) still aborts after start when the
`os.makedirs(unknown_folder, exist_ok=True)` of line 281 raises: the exception
escapes `copy_media` — that call sits outside the per-file `try` — and is
caught by `run_backup`'s catch-all, ending the job with zero files copied.
The same single file is copied when the pre-creation succeeds, so the abort is
attributable to that one post-start failure, refuting "only a missing source
folder or an uncreatable destination aborts the job, and only before it starts
running". -/
theorem c5_counterexample :
    start_backup true true "dst" [] false (fun _ => true)
        [⟨"a", ".mp4", ExifOutcome.noDate, some ⟨2024, 3⟩, true, true⟩]
      = JobOutcome.failedAfterStart "makedirs failed for Unknown_Date" ∧
    (copy_media "dst" [] (fun _ => true)
        [⟨"a", ".mp4", ExifOutcome.noDate, some ⟨2024, 3⟩, true, true⟩]).1.copied = 1 :=
  ⟨rfl, by decide⟩

/-- Claim C5, amended: every per-file error is absorbed at the loop boundary —
each enumerated file is either copied or skipped with a logged error, for any
pattern of per-file failures; a missing source folder or an uncreatable
destination aborts the job before it starts, and one further failure aborts it
after start: the pre-creation of `Unknown_Date` (line 281, outside the
per-file `try`) raising on a nonempty enumeration, caught by `run_backup`'s
catch-all with zero files copied.  When that pre-creation succeeds, the run is
exactly the per-file loop. -/
theorem c5_error_isolation_and_aborts :
    (∀ (dest : String) (initFs : List String) (running : Nat → Bool) (files : List MediaFile),
      (copy_media dest initFs running files).1.copied
        + (copy_media dest initFs running files).1.errors.length = files.length) ∧
    (∀ (sourceExists destCreatable : Bool) (dest : String) (initFs : List String)
        (unknownMkdirOk : Bool) (running : Nat → Bool) (files : List MediaFile),
      (∃ m, start_backup sourceExists destCreatable dest initFs unknownMkdirOk running files
          = JobOutcome.abortedPreStart m) ↔ (sourceExists = false ∨ destCreatable = false)) ∧
    (∀ (sourceExists destCreatable : Bool) (dest : String) (initFs : List String)
        (unknownMkdirOk : Bool) (running : Nat → Bool) (files : List MediaFile),
      (∃ m, start_backup sourceExists destCreatable dest initFs unknownMkdirOk running files
          = JobOutcome.failedAfterStart m) ↔
        (sourceExists = true ∧ destCreatable = true ∧ unknownMkdirOk = false ∧ files ≠ [])) ∧
    (∀ (dest : String) (initFs : List String) (running : Nat → Bool) (files : List MediaFile),
      copy_media_exc dest initFs true running files
        = Except.ok (copy_media dest initFs running files)) := by
  refine ⟨?_, ?_, ?_, fun dest initFs running files => copy_media_exc_ok dest initFs running files⟩
  · intro dest initFs running files
    cases files with
    | nil => rfl
    | cons f rest =>
      unfold copy_media
      simp only [List.isEmpty_cons, Bool.false_eq_true, if_false]
      obtain ⟨hlen, -, -⟩ :=
        copy_media_loop_facts dest running (f :: rest) 0
          { fsPaths := initFs, cache := [unknownFolder dest],
            events := [.mkdir (unknownFolder dest)], errors := [], copied := 0 }
      simpa using hlen
  · intro sE dC dest initFs uOk running files
    cases sE <;> cases dC <;> cases uOk <;> cases files <;>
      simp [start_backup, copy_media_exc]
  · intro sE dC dest initFs uOk running files
    cases sE <;> cases dC <;> cases uOk <;> cases files <;>
      simp [start_backup, copy_media_exc]

end MediaBackup
